import Mathlib

/-
Verification of the progressivis core: shallow embedding of the dataflow
graph (progressivis/core/dataflow.py), the module state machine and step
protocol (progressivis/core/module.py) and the scheduler interaction logic
(progressivis/core/scheduler_base.py), together with proofs about the
claims of the specification.

Python dicts are embedded as association lists (insertion order preserved,
unique keys), Python sets of names as lists, floats as rationals, and
methods that can raise (assert / ProgressiveError / AttributeError) as
functions into Except.  Mutation of `self` is made explicit: a method
returns the updated state next to its result.
-/

namespace Progressivis

/- Module state constants, from Module in module.py. -/

def state_created : Nat := 0

def state_ready : Nat := 1

def state_running : Nat := 2

def state_blocked : Nat := 3

def state_zombie : Nat := 4

def state_terminated : Nat := 5

def state_invalid : Nat := 6

/- ----------------------------------------------------------------
   Module._return_run_step (module.py lines 503-517).
   `self.steps_acc += steps_run` happens after the assertion and before
   the creates/updates normalization, so the function returns the new
   accumulator next to the result; raising is an `Except.error`.
   ---------------------------------------------------------------- -/

structure StepRet where
  next_state : Nat
  steps_run : Nat
  reads : Nat
  updates : Nat
  creates : Nat
deriving DecidableEq

def returnRunStep (stepsAcc next_state steps_run reads updates creates : Nat) :
    Nat × Except String StepRet :=
  if ¬ (state_ready ≤ next_state ∧ next_state ≤ state_zombie) then
    (stepsAcc, Except.error "assert next_state in range")
  else
    let acc := stepsAcc + steps_run
    if creates ≠ 0 ∧ updates = 0 then
      (acc, Except.ok ⟨next_state, steps_run, reads, creates, creates⟩)
    else if updates < creates then
      (acc, Except.error "ProgressiveError: more creates than updates")
    else
      (acc, Except.ok ⟨next_state, steps_run, reads, updates, creates⟩)

/- ----------------------------------------------------------------
   Scheduler interaction state (scheduler_base.py).
   `moduleSelection` models `_module_selection` (None or a set of module
   names), `selectionTargetTime` models `_selection_target_time`,
   `timerVal` models the reading of `self.timer()`, `wallClock` the
   reading of `default_timer()`, `startInter` `_start_inter`,
   `interCyclesCnt` `_inter_cycles_cnt`, `stepsAcc` the `steps_acc`
   counters of the modules, keyed by module name.
   ---------------------------------------------------------------- -/

structure InterOpts where
  starvingMods : Option (List String)
  maxTime : Option ℚ
  maxIter : Option Nat
deriving DecidableEq

structure SState where
  moduleSelection : Option (List String)
  selectionTargetTime : ℚ
  timerVal : ℚ
  wallClock : ℚ
  startInter : ℚ
  interCyclesCnt : Nat
  interactionOpts : Option InterOpts
  stepsAcc : List (String × Nat)
deriving DecidableEq

/- BaseScheduler.has_input (scheduler_base.py lines 623-632): returns the
   boolean result and the possibly mutated state (an empty selection is
   reset to None and the target time to -1). -/
def hasInput (s : SState) : Bool × SState :=
  match s.moduleSelection with
  | none => (false, s)
  | some sel =>
    if sel.isEmpty then
      (false, { s with moduleSelection := none, selectionTargetTime := -1 })
    else
      (true, s)

/- BaseScheduler.time_left (scheduler_base.py lines 644-649).  The inner
   `has_input()` call is only evaluated when the target time is ≤ 0
   (Python's shortcut `and`). -/
def timeLeft (s : SState) : ℚ × SState :=
  if s.selectionTargetTime ≤ 0 then
    let hi := hasInput s
    if hi.1 = false then (0, hi.2)
    else (max 0 (hi.2.selectionTargetTime - hi.2.timerVal), hi.2)
  else
    (max 0 (s.selectionTargetTime - s.timerVal), s)

/- BaseScheduler.fix_quantum (scheduler_base.py lines 651-659). -/
def fixQuantum (s : SState) (mname : String) (quantum : ℚ) : ℚ × SState :=
  let hi := hasInput s
  if hi.1 = true ∧ mname ∈ hi.2.moduleSelection.getD [] then
    let tl := timeLeft hi.2
    let q := tl.1 / ((hi.2.moduleSelection.getD []).length : ℚ)
    (if q = 0 then 1/10 else q, tl.2)
  else
    (if quantum = 0 then 1/10 else quantum, hi.2)

/- Python truthiness of the interaction-option fields. -/
def optListTruthy (o : Option (List String)) : Bool :=
  match o with
  | none => false
  | some l => !l.isEmpty

def optRatTruthy (o : Option ℚ) : Bool :=
  match o with
  | none => false
  | some q => decide (q ≠ 0)

def optNatTruthy (o : Option Nat) : Bool :=
  match o with
  | none => false
  | some k => decide (k ≠ 0)

def lookupSteps (l : List (String × Nat)) (k : String) : Nat :=
  match l with
  | [] => 0
  | (k2, v) :: t => if k2 = k then v else lookupSteps t k

def sumSteps (s : SState) (mods : List String) : Nat :=
  (mods.map (fun m => lookupSteps s.stepsAcc m)).sum

/- BaseScheduler._proc_interaction_opts (scheduler_base.py lines 103-132). -/
def procInteractionOpts (s : SState) : SState :=
  let hi := hasInput s
  if hi.1 = false then hi.2
  else
    match hi.2.interactionOpts with
    | none => { hi.2 with moduleSelection := none, interCyclesCnt := 0 }
    | some opts =>
      if optListTruthy opts.starvingMods = true ∧
          sumSteps hi.2 (opts.starvingMods.getD []) = 0 then
        { hi.2 with moduleSelection := none, interCyclesCnt := 0 }
      else if optRatTruthy opts.maxTime = true ∧
          hi.2.wallClock - hi.2.startInter ≥ opts.maxTime.getD 0 then
        { hi.2 with moduleSelection := none, interCyclesCnt := 0 }
      else if optNatTruthy opts.maxIter = true then
        if hi.2.interCyclesCnt ≥ opts.maxIter.getD 0 then
          { hi.2 with moduleSelection := none, interCyclesCnt := 0 }
        else
          { hi.2 with interCyclesCnt := hi.2.interCyclesCnt + 1 }
      else
        hi.2

/- ----------------------------------------------------------------
   Module.is_ready (module.py lines 531-588).
   A module is embedded by its state, its `is_input()` flag and its
   input-slot dictionary values (`None` for a declared but unbound slot).
   A bound input slot is embedded by what the loop of is_ready reads
   from it: `slot.has_buffered()`, `slot.output_module.last_update()`,
   `slot.last_update()` and `slot.output_module.state`.
   ---------------------------------------------------------------- -/

structure InSlot where
  hasBuffered : Bool
  producerLastUpdate : Int
  slotLastUpdate : Int
  producerState : Nat
deriving DecidableEq

structure ModuleV where
  state : Nat
  isInputFlag : Bool
  inputSlots : List (Option InSlot)
deriving DecidableEq

/- Module.has_any_input: `any(self._input_slots.values())`. -/
def hasAnyInput (m : ModuleV) : Bool :=
  m.inputSlots.any (fun sl => sl.isSome)

/- One slot of the loop: `slot.has_buffered() or in_ts > ts`. -/
def slotReady (sl : InSlot) : Bool :=
  sl.hasBuffered || decide (sl.producerLastUpdate > sl.slotLastUpdate)

/- One slot of the loop: the `elif` branch, taken only when the slot is
   not ready: `in_module.is_terminated() or in_module.state == state_invalid`. -/
def slotTerm (sl : InSlot) : Bool :=
  !slotReady sl &&
    (decide (sl.producerState = state_terminated) ||
     decide (sl.producerState = state_invalid))

def boundSlots (m : ModuleV) : List InSlot :=
  m.inputSlots.filterMap id

def inCount (m : ModuleV) : Nat := (boundSlots m).length

def readyCount (m : ModuleV) : Nat := ((boundSlots m).filter slotReady).length

def termCount (m : ModuleV) : Nat := ((boundSlots m).filter slotTerm).length

/- The count the specification's wording describes for the zombie test:
   all bound inputs whose producer is Terminated or Invalid, whether or
   not the slot still has fresh data. -/
def specTermCount (m : ModuleV) : Nat :=
  ((boundSlots m).filter (fun sl =>
    decide (sl.producerState = state_terminated) ||
    decide (sl.producerState = state_invalid))).length

/- Module.is_ready, returning its boolean result and the possibly
   mutated module (zombie → terminated; blocked → zombie). -/
def isReady (m : ModuleV) : Bool × ModuleV :=
  if m.state = state_zombie then
    (false, { m with state := state_terminated })
  else if m.state = state_terminated then
    (false, m)
  else if m.state = state_invalid then
    (false, m)
  else if !hasAnyInput m then
    (true, m)
  else if m.state = state_ready then
    (true, m)
  else if m.state = state_blocked then
    if !m.isInputFlag && decide (inCount m ≠ 0) && decide (termCount m = inCount m) then
      (false, { m with state := state_zombie })
    else
      (decide (inCount m = 0) || decide (readyCount m ≠ 0), m)
  else
    (false, m)

/- ----------------------------------------------------------------
   Every.predict_step_size and Print (module.py lines 790-825).
   The TimePredictor collaborator (time_predictor.py, outside the core)
   is abstracted as the function used by Module.predict_step_size:
   `self.predictor.predict(duration, self.default_step_size)` after a fit.
   ---------------------------------------------------------------- -/

structure EveryV where
  constantTime : Bool
  defaultStepSize : Nat
  predictorPredict : ℚ → Nat → Nat

/- Every.predict_step_size: 1 when `_constant_time`, otherwise the
   inherited Module.predict_step_size. -/
def predictStepSize (e : EveryV) (duration : ℚ) : Nat :=
  if e.constantTime then 1
  else e.predictorPredict duration e.defaultStepSize

/- Print.__init__ always calls Every.__init__ with constant_time=True
   (module.py line 825), so a Print module is an EveryV whose
   constantTime field is true. -/
def mkPrint (defaultStepSize : Nat) (predictorPredict : ℚ → Nat → Nat) : EveryV :=
  { constantTime := true
    defaultStepSize := defaultStepSize
    predictorPredict := predictorPredict }

/- ----------------------------------------------------------------
   Dataflow (dataflow.py).  `_modules`, `_inputs` and `_outputs` are
   embedded as association lists keyed by module name; module objects
   live in a separate arena `states` (name → state) that survives
   deregistration, so that `module.terminate()` remains observable after
   `del self._modules[module.name]`.
   ---------------------------------------------------------------- -/

structure DSlot where
  module : String
  name : String
deriving DecidableEq

def alookup {α : Type} (l : List (String × α)) (k : String) : Option α :=
  match l with
  | [] => none
  | (k2, v) :: t => if k2 = k then some v else alookup t k

def aset {α : Type} (l : List (String × α)) (k : String) (v : α) : List (String × α) :=
  match l with
  | [] => [(k, v)]
  | (k2, v2) :: t => if k2 = k then (k2, v) :: t else (k2, v2) :: aset t k v

def aerase {α : Type} (l : List (String × α)) (k : String) : List (String × α) :=
  match l with
  | [] => []
  | (k2, v2) :: t => if k2 = k then t else (k2, v2) :: aerase t k

structure DF where
  states : List (String × Nat)
  modules : List String
  inputs : List (String × List (String × DSlot))
  outputs : List (String × List (String × List DSlot))
deriving DecidableEq

/- Dataflow.add_module: requires a created, unused module; registers
   empty input/output maps. -/
def addModule (df : DF) (name : String) : Except String DF :=
  if ¬ (alookup df.states name).getD state_created = state_created then
    Except.error "assert module.is_created()"
  else if (alookup df.inputs name).isSome then
    Except.error "assert module.name not in inputs"
  else
    Except.ok
      { states := aset df.states name state_created
        modules := df.modules ++ [name]
        inputs := aset df.inputs name []
        outputs := aset df.outputs name [] }

/- Dataflow.add_connection (dataflow.py lines 73-84).  The final branch
   of the Python code is `self._outputs[output_module.name].append(oslot)`:
   it calls `append` on the *dict* of output slots, which raises
   AttributeError; it is embedded as an error. -/
def addConnection (df : DF) (outputModule outputName inputModule inputName : String) :
    Except String DF :=
  match alookup df.inputs inputModule with
  | none => Except.error "KeyError: input module not registered"
  | some imap =>
    if (alookup imap inputName).isSome then
      Except.error "assert input_name not in inputs"
    else
      let inputs := aset df.inputs inputModule
        (aset imap inputName ⟨outputModule, outputName⟩)
      let oslot : DSlot := ⟨inputModule, inputName⟩
      match alookup df.outputs outputModule with
      | none =>
        Except.ok { df with
          inputs := inputs
          outputs := aset df.outputs outputModule [(outputName, [oslot])] }
      | some omap =>
        match alookup omap outputName with
        | none =>
          Except.ok { df with
            inputs := inputs
            outputs := aset df.outputs outputModule (aset omap outputName [oslot]) }
        | some _ =>
          Except.error "AttributeError: dict object has no attribute append"

/- Dataflow._remove_module_inputs: drop every reverse edge pointing back
   at `name` from its producers' fan-out lists, then delete `inputs[name]`. -/
def removeModuleInputs (df : DF) (name : String) : DF :=
  let moduleSlots := (alookup df.inputs name).getD []
  let outputs := moduleSlots.foldl
    (fun outs p =>
      match p with
      | (_, slot) =>
        let omap := (alookup outs slot.module).getD []
        let slots := (alookup omap slot.name).getD []
        let nslots := slots.filter (fun s => s.module ≠ name)
        if nslots.isEmpty then
          aset outs slot.module (aerase omap slot.name)
        else
          aset outs slot.module (aset omap slot.name nslots))
    df.outputs
  { df with inputs := aerase df.inputs name, outputs := outputs }

/- The loop body of Dataflow._remove_module_outputs over the module's own
   output dict: each fan-out list is filtered with `s.module != name`,
   then `assert nslots != slots` runs; the assertion is embedded as an
   error.  An emptied list has its key deleted. -/
def removeOutputsLoop (ms : List (String × List DSlot)) (name : String) :
    Except String (List (String × List DSlot)) :=
  match ms with
  | [] => Except.ok []
  | (sname, slots) :: t =>
    let nslots := slots.filter (fun s => s.module ≠ name)
    if nslots = slots then
      Except.error "assert nslots != slots"
    else
      match removeOutputsLoop t name with
      | Except.error e => Except.error e
      | Except.ok rest =>
        if nslots.isEmpty then Except.ok rest
        else Except.ok ((sname, nslots) :: rest)

/- Dataflow._remove_module_outputs. -/
def removeModuleOutputs (df : DF) (name : String) : Except String DF :=
  let moduleSlots := (alookup df.outputs name).getD []
  match removeOutputsLoop moduleSlots name with
  | Except.error e => Except.error e
  | Except.ok msOut =>
    Except.ok { df with outputs := aerase (aset df.outputs name msOut) name }

/- Dataflow.remove_module (dataflow.py lines 64-71): terminate (set the
   module state to zombie), delete the modules entry, clean the inputs,
   then clean the outputs (where the assertion can fire). -/
def removeModule (df : DF) (name : String) : Except String DF :=
  let df1 : DF := { df with
    states := aset df.states name state_zombie
    modules := df.modules.filter (fun n => n ≠ name) }
  let df2 := removeModuleInputs df1 name
  removeModuleOutputs df2 name

/- ----------------------------------------------------------------
   Topological ordering (scheduler_base.py lines 185-216).
   ---------------------------------------------------------------- -/

/- A module of the dependency collection: name, validity, and bound
   input slots as (producer name, required flag) pairs. -/
structure DepMod where
  name : String
  valid : Bool
  slots : List (String × Bool)
deriving DecidableEq

/- BaseScheduler._collect_dependencies: skip invalid modules; keep a
   producer when not only_required or the slot is required. -/
def collectDependencies (mods : List DepMod) (onlyRequired : Bool) :
    List (String × List String) :=
  (mods.filter (fun m => m.valid)).map
    (fun m => (m.name, (m.slots.filter (fun sl => !onlyRequired || sl.2)).map
      (fun sl => sl.1)))

/-- Modelled from the spec: `toposort` (progressivis.core.toposort, absent
from src/) computes a topological order of the dependency map and raises
ValueError on a cycle ("runs topological sort on dependencies. If a cycle
exists", it raises); embedded as a Kahn-style sort emitting every module
whose remaining dependencies are all emitted or unknown, erroring when no
progress is possible. -/
def toposortAux : Nat → List String → List (String × List String) →
    Except String (List String)
  | _, acc, [] => Except.ok acc
  | 0, _, _ => Except.error "ValueError: cycle"
  | fuel + 1, acc, rem =>
    let ready := rem.filter (fun p =>
      p.2.all (fun d => !(rem.any (fun q => q.1 = d))))
    if ready.isEmpty then
      Except.error "ValueError: cycle"
    else
      toposortAux fuel (acc ++ ready.map (fun p => p.1))
        (rem.filter (fun p => !(p.2.all (fun d => !(rem.any (fun q => q.1 = d))))))

def toposort (deps : List (String × List String)) : Except String (List String) :=
  toposortAux (deps.length + 1) [] deps

/- BaseScheduler.order_modules (scheduler_base.py lines 185-204): try the
   full dependency map; on ValueError retry with only the required
   inputs; a second ValueError propagates. -/
def orderModules (mods : List DepMod) : Except String (List String) :=
  match toposort (collectDependencies mods false) with
  | Except.ok runorder => Except.ok runorder
  | Except.error _ => toposort (collectDependencies mods true)

/- BaseScheduler._update_modules (scheduler_base.py lines 461-480),
   restricted to what decides the claim: `_run_list` is emptied, then the
   new order is computed (an uncaught ValueError leaves the empty list in
   place), then on success the new run list is adopted, unless validation
   fails, in which case the saved previous run list is restored.  The
   result pairs the propagated error, if any, with the final state. -/
def updateModules (runList : List String) (mods : List DepMod) (validateOk : Bool) :
    Option String × List String :=
  match orderModules mods with
  | Except.error e => (some e, [])
  | Except.ok runorder =>
    if validateOk then (none, runorder)
    else (none, runList)

/- ----------------------------------------------------------------
   BaseScheduler._compute_reachability (scheduler_base.py lines 218-257).
   The dependency map on a module set of size n is a boolean matrix
   `deps v u` (u is a producer of v, i.e. u ∈ dependencies[v]); the code
   builds the edge u → v from it and asks scipy for all-pairs shortest
   paths; `R[u] = {u} ∪ {v : dist(u,v) ∉ {0, ∞}}` is exactly the
   reflexive-transitive closure of the edge relation, which is embedded
   here as an executable closure: squaring steps iterated until the
   n²-bounded chain of relations must have reached its fixpoint.
   ---------------------------------------------------------------- -/

def relComp {n : Nat} (r : Fin n → Fin n → Bool) : Fin n → Fin n → Bool :=
  fun a b => r a b || decide (∃ c, r a c = true ∧ r c b = true)

def baseRel {n : Nat} (deps : Fin n → Fin n → Bool) : Fin n → Fin n → Bool :=
  fun a b => a == b || deps b a

def closeRel {n : Nat} (deps : Fin n → Fin n → Bool) : Fin n → Fin n → Bool :=
  relComp^[n * n + 1] (baseRel deps)

def relLe {n : Nat} (r s : Fin n → Fin n → Bool) : Prop :=
  ∀ a b, r a b = true → s a b = true

theorem relLe_refl {n : Nat} (r : Fin n → Fin n → Bool) : relLe r r :=
  fun _ _ h => h

theorem relLe_trans {n : Nat} {r s t : Fin n → Fin n → Bool}
    (h1 : relLe r s) (h2 : relLe s t) : relLe r t :=
  fun a b h => h2 a b (h1 a b h)

theorem relLe_relComp {n : Nat} (r : Fin n → Fin n → Bool) : relLe r (relComp r) := by
  intro a b h
  simp [relComp, h]

theorem relLe_iterate {n : Nat} (r : Fin n → Fin n → Bool) (k : Nat) :
    relLe r (relComp^[k] r) := by
  induction k with
  | zero => exact relLe_refl r
  | succ k ih =>
    rw [Function.iterate_succ_apply']
    exact relLe_trans ih (relLe_relComp _)

def relSize {n : Nat} (r : Fin n → Fin n → Bool) : Nat :=
  (Finset.filter (fun p : Fin n × Fin n => r p.1 p.2 = true) Finset.univ).card

theorem relSize_le {n : Nat} (r : Fin n → Fin n → Bool) : relSize r ≤ n * n := by
  have h := Finset.card_filter_le (Finset.univ : Finset (Fin n × Fin n))
    (fun p : Fin n × Fin n => r p.1 p.2 = true)
  simpa [relSize, Fintype.card_prod] using h

theorem relSize_lt {n : Nat} {r s : Fin n → Fin n → Bool}
    (hle : relLe r s) (hne : r ≠ s) : relSize r < relSize s := by
  obtain ⟨a, ha⟩ := Function.ne_iff.mp hne
  obtain ⟨b, hb⟩ := Function.ne_iff.mp ha
  have hsub : (Finset.filter (fun p : Fin n × Fin n => r p.1 p.2 = true) Finset.univ) ⊆
      (Finset.filter (fun p : Fin n × Fin n => s p.1 p.2 = true) Finset.univ) := by
    intro p hp
    simp only [Finset.mem_filter, Finset.mem_univ, true_and] at hp ⊢
    exact hle p.1 p.2 hp
  have hrb : r a b = false := by
    cases hr : r a b with
    | false => rfl
    | true =>
      have hs := hle a b hr
      exact absurd (hr.trans hs.symm) hb
  have hsb : s a b = true := by
    cases hs : s a b with
    | true => rfl
    | false => exact absurd (hrb.trans hs.symm) hb
  apply Finset.card_lt_card
  rw [Finset.ssubset_iff_of_subset hsub]
  refine ⟨(a, b), ?_, ?_⟩
  · simp [hsb]
  · simp [hrb]

theorem relComp_fix_closed {n : Nat} {r : Fin n → Fin n → Bool}
    (hfix : relComp r = r) {a b c : Fin n}
    (hab : r a b = true) (hbc : r b c = true) : r a c = true := by
  have h : relComp r a c = true := by
    simp only [relComp, Bool.or_eq_true, decide_eq_true_eq]
    exact Or.inr ⟨b, hab, hbc⟩
  rwa [hfix] at h

theorem relComp_fix_stable {n : Nat} {r : Fin n → Fin n → Bool}
    (hfix : relComp r = r) (m : Nat) : relComp^[m] r = r := by
  induction m with
  | zero => rfl
  | succ m ih => rw [Function.iterate_succ_apply, hfix, ih]

theorem relComp_reaches_fix {n : Nat} (r : Fin n → Fin n → Bool) :
    ∃ k, k ≤ n * n ∧ relComp (relComp^[k] r) = relComp^[k] r := by
  by_contra hcon
  push_neg at hcon
  have key : ∀ k, k ≤ n * n + 1 → k ≤ relSize (relComp^[k] r) := by
    intro k
    induction k with
    | zero => intro _; exact Nat.zero_le _
    | succ k ih =>
      intro hk
      have hk' : k ≤ n * n := Nat.lt_succ_iff.mp hk
      have hne := hcon k hk'
      have hlt : relSize (relComp^[k] r) < relSize (relComp^[k + 1] r) := by
        rw [Function.iterate_succ_apply']
        exact relSize_lt (relLe_relComp _) (Ne.symm hne)
      have := ih (Nat.le_of_succ_le hk)
      omega
  have h1 := key (n * n + 1) (Nat.le_refl _)
  have h2 := relSize_le (relComp^[n * n + 1] r)
  omega

theorem closeRel_fix {n : Nat} (deps : Fin n → Fin n → Bool) :
    relComp (closeRel deps) = closeRel deps := by
  obtain ⟨k, hk, hfix⟩ := relComp_reaches_fix (baseRel deps)
  have hsplit : closeRel deps = relComp^[n * n + 1 - k] (relComp^[k] (baseRel deps)) := by
    rw [closeRel, ← Function.iterate_add_apply]
    congr 1
    omega
  rw [hsplit, relComp_fix_stable hfix]
  exact hfix

theorem closeRel_refl {n : Nat} (deps : Fin n → Fin n → Bool) (a : Fin n) :
    closeRel deps a a = true := by
  apply relLe_iterate (baseRel deps) (n * n + 1) a a
  simp [baseRel]

theorem closeRel_trans {n : Nat} (deps : Fin n → Fin n → Bool) {a b c : Fin n}
    (hab : closeRel deps a b = true) (hbc : closeRel deps b c = true) :
    closeRel deps a c = true :=
  relComp_fix_closed (closeRel_fix deps) hab hbc

/- The executable closure is exactly "a path exists" in the dependency
   graph, justifying it as the embedding of the scipy shortest-path test
   `dist != 0 and dst != np.inf` together with the initial `s = {u}`. -/
theorem closeRel_iff_reflTransGen {n : Nat} (deps : Fin n → Fin n → Bool) (a b : Fin n) :
    closeRel deps a b = true ↔
      Relation.ReflTransGen (fun u v => deps v u = true) a b := by
  constructor
  · have sound : ∀ k (x y : Fin n), relComp^[k] (baseRel deps) x y = true →
        Relation.ReflTransGen (fun u v => deps v u = true) x y := by
      intro k
      induction k with
      | zero =>
        intro x y h
        simp only [Function.iterate_zero_apply, baseRel, Bool.or_eq_true, beq_iff_eq] at h
        rcases h with h | h
        · exact h ▸ Relation.ReflTransGen.refl
        · exact Relation.ReflTransGen.single h
      | succ k ih =>
        intro x y h
        rw [Function.iterate_succ_apply'] at h
        simp only [relComp, Bool.or_eq_true, decide_eq_true_eq] at h
        rcases h with h | ⟨c, h1, h2⟩
        · exact ih x y h
        · exact (ih x c h1).trans (ih c y h2)
    exact sound (n * n + 1) a b
  · intro h
    induction h with
    | refl => exact closeRel_refl deps a
    | tail _ hedge ih =>
      refine closeRel_trans deps ih ?_
      apply relLe_iterate (baseRel deps) (n * n + 1)
      simp [baseRel, hedge]

/- R[u] as the code builds it: `s = {vertex1} ∪ {vertex2 : dst ∉ {0, ∞}}`. -/
def reachSet {n : Nat} (deps : Fin n → Fin n → Bool) (u : Fin n) : Finset (Fin n) :=
  Finset.filter (fun v => closeRel deps u v = true) Finset.univ

/- `all_vis.intersection(s)` is non-empty. -/
def hasVisAfter {n : Nat} (deps : Fin n → Fin n → Bool) (vis : Fin n → Bool)
    (u : Fin n) : Bool :=
  decide (∃ v, closeRel deps u v = true ∧ vis v = true)

/- `reach_no_vis`: the union of every R[u] that contains no visualization,
   together with such a u itself when it is not a visualization (a no-op,
   since u ∈ R[u], kept for faithfulness). -/
def deadVis {n : Nat} (deps : Fin n → Fin n → Bool) (vis : Fin n → Bool) :
    Finset (Fin n) :=
  Finset.filter (fun w => ∃ u, hasVisAfter deps vis u = false ∧
    (closeRel deps u w = true ∨ (w = u ∧ vis u = false))) Finset.univ

/- The final reachability entry: `R[u].difference_update(reach_no_vis)`. -/
def finalReach {n : Nat} (deps : Fin n → Fin n → Bool) (vis : Fin n → Bool)
    (u : Fin n) : Finset (Fin n) :=
  reachSet deps u \ deadVis deps vis

/- ================= Claim theorems ================= -/

/-- C2: for every step result returned through `_return_run_step` with
next_state in (Ready, Blocked, Zombie): if creates > 0 and updates = 0
the returned result has updates equal to creates; if creates > updates
with updates nonzero a ProgressiveError is raised and no result is
returned; and every returned result satisfies creates ≤ updates. -/
theorem claim2_return_run_step_contract :
    ∀ stepsAcc ns sr r u c : Nat,
      ns = state_ready ∨ ns = state_blocked ∨ ns = state_zombie →
      ((0 < c ∧ u = 0 →
          (returnRunStep stepsAcc ns sr r u c).2 = Except.ok ⟨ns, sr, r, c, c⟩) ∧
       (u ≠ 0 ∧ u < c →
          (returnRunStep stepsAcc ns sr r u c).2 =
            Except.error "ProgressiveError: more creates than updates") ∧
       (∀ ret, (returnRunStep stepsAcc ns sr r u c).2 = Except.ok ret →
          ret.creates ≤ ret.updates)) := by
  intro acc ns sr r u c hns
  have hrange : state_ready ≤ ns ∧ ns ≤ state_zombie := by
    rcases hns with h | h | h <;>
      simp [h, state_ready, state_blocked, state_zombie]
  refine ⟨?_, ?_, ?_⟩
  · rintro ⟨hc, hu⟩
    have hc' : c ≠ 0 := by omega
    simp [returnRunStep, hrange, hu, hc']
  · rintro ⟨hu, hlt⟩
    have hnot : ¬ (c ≠ 0 ∧ u = 0) := by
      rintro ⟨_, h0⟩
      exact hu h0
    simp [returnRunStep, hrange, hnot, hlt]
  · intro ret hret
    have hcond : ¬ ¬ (state_ready ≤ ns ∧ ns ≤ state_zombie) := not_not_intro hrange
    simp only [returnRunStep, if_neg hcond] at hret
    by_cases h1 : c ≠ 0 ∧ u = 0
    · rw [if_pos h1] at hret
      injection hret with h
      subst h
      simp
    · rw [if_neg h1] at hret
      by_cases h2 : u < c
      · rw [if_pos h2] at hret
        cases hret
      · rw [if_neg h2] at hret
        injection hret with h
        subst h
        simpa using Nat.le_of_not_lt h2

/-- C2 witness: a concrete step result with creates = 2 and updates = 0
is normalized to updates = 2. -/
theorem claim2_witness :
    (returnRunStep 0 state_blocked 5 3 0 2).2 =
      Except.ok ⟨state_blocked, 5, 3, 2, 2⟩ :=
  (claim2_return_run_step_contract 0 state_blocked 5 3 0 2
    (Or.inr (Or.inl rfl))).1 ⟨by omega, rfl⟩

/-- C9: every Every module constructed with constant_time=True predicts a
step size of 1 for every duration, and every Print module (which always
passes constant_time=True to Every) does too. -/
theorem claim9_constant_time_predicts_one :
    (∀ (e : EveryV) (d : ℚ), e.constantTime = true → predictStepSize e d = 1) ∧
    (∀ (dss : Nat) (pp : ℚ → Nat → Nat) (d : ℚ),
      predictStepSize (mkPrint dss pp) d = 1) := by
  constructor
  · intro e d h
    simp [predictStepSize, h]
  · intro dss pp d
    simp [predictStepSize, mkPrint]

/-- C9 witness: a concrete constant-time Every module predicts 1. -/
theorem claim9_witness :
    predictStepSize ⟨true, 100, fun _ dss => dss⟩ 7 = 1 :=
  claim9_constant_time_predicts_one.1 ⟨true, 100, fun _ dss => dss⟩ 7 rfl

/-- C10: has_input is not a pure predicate: on a state whose
module_selection is the empty set it resets module_selection to None and
selection_target_time to -1 and returns False; after any call,
module_selection is either None or a non-empty set. -/
theorem claim10_has_input_cleanup :
    (∀ s : SState, s.moduleSelection = some [] →
      hasInput s =
        (false, { s with moduleSelection := none, selectionTargetTime := -1 })) ∧
    (∀ s : SState, (hasInput s).2.moduleSelection = none ∨
      ∃ l, (hasInput s).2.moduleSelection = some l ∧ l ≠ []) := by
  constructor
  · intro s h
    simp [hasInput, h]
  · intro s
    match h : s.moduleSelection with
    | none => exact Or.inl (by simp [hasInput, h])
    | some sel =>
      by_cases he : sel.isEmpty
      · exact Or.inl (by simp [hasInput, h, he])
      · refine Or.inr ⟨sel, by simp [hasInput, h, he], by simpa using he⟩

/-- C10 witness: calling has_input on a concrete state with an empty
selection returns false and clears the selection. -/
theorem claim10_witness :
    hasInput ⟨some [], 3, 1, 1, 0, 2, none, []⟩ =
      (false, ⟨none, -1, 1, 1, 0, 2, none, []⟩) :=
  claim10_has_input_cleanup.1 ⟨some [], 3, 1, 1, 0, 2, none, []⟩ rfl

/- Helper lemmas about has_input as a state transformer. -/

theorem hasInput_true_eq {s : SState} (h : (hasInput s).1 = true) :
    (hasInput s).2 = s := by
  unfold hasInput at *
  match hm : s.moduleSelection with
  | none => simp [hm] at h
  | some sel =>
    by_cases he : sel.isEmpty
    · simp [hm, he] at h
    · simp [hm, he]

theorem hasInput_snd (s : SState) :
    (hasInput s).2 = s ∨
    (hasInput s).2 = { s with moduleSelection := none, selectionTargetTime := -1 } := by
  unfold hasInput
  match hm : s.moduleSelection with
  | none => exact Or.inl rfl
  | some sel =>
    by_cases he : sel.isEmpty
    · exact Or.inr (by simp [he])
    · exact Or.inl (by simp [he])

theorem hasInput_cnt (s : SState) :
    (hasInput s).2.interCyclesCnt = s.interCyclesCnt := by
  rcases hasInput_snd s with h | h <;> rw [h]

/- ---- C7 ---- -/

/-- C7 counterexample: a scheduler state in interaction mode (selection =
set("a"), target time 5, timer 5) and a module "b" outside the selection
with quantum 5: fix_quantum returns 5, not time_left()/len(selection)
(which is 0 here) and not the 0.1 floor the claim would then require, so
"in interaction mode, fix_quantum(m, q) returns time_left() divided by
the size of module_selection" is false as stated. -/
theorem claim7_counterexample :
    (hasInput ⟨some ["a"], 5, 5, 0, 0, 0, none, []⟩).1 = true ∧
    (fixQuantum ⟨some ["a"], 5, 5, 0, 0, 0, none, []⟩ "b" 5).1 = 5 ∧
    (timeLeft ⟨some ["a"], 5, 5, 0, 0, 0, none, []⟩).1 /
      (((⟨some ["a"], 5, 5, 0, 0, 0, none, []⟩ : SState).moduleSelection.getD
        []).length : ℚ) = 0 ∧
    (5 : ℚ) ≠ 0 ∧ (5 : ℚ) ≠ 1/10 := by
  refine ⟨rfl, ?_, ?_, by norm_num, by norm_num⟩
  · have hb : ¬ ((hasInput ⟨some ["a"], 5, 5, 0, 0, 0, none, []⟩).1 = true ∧
        "b" ∈ (hasInput
          ⟨some ["a"], 5, 5, 0, 0, 0, none, []⟩).2.moduleSelection.getD []) := by
      rintro ⟨-, hmem⟩
      simp [hasInput] at hmem
    simp only [fixQuantum, if_neg hb]
    norm_num
  · simp only [timeLeft]
    norm_num

/-- C7 (amended): in interaction mode, when the module is a member of
module_selection, fix_quantum returns time_left() divided by the size of
module_selection, with a computed 0 replaced by the floor 0.1; and for
every call fix_quantum never returns 0 (a computed or given quantum of 0
is replaced by 0.1). -/
theorem claim7_fix_quantum_amended :
    (∀ (s : SState) (m : String) (q : ℚ),
      (hasInput s).1 = true → m ∈ s.moduleSelection.getD [] →
      (fixQuantum s m q).1 =
        (if (timeLeft s).1 / ((s.moduleSelection.getD []).length : ℚ) = 0
         then 1/10
         else (timeLeft s).1 / ((s.moduleSelection.getD []).length : ℚ))) ∧
    (∀ (s : SState) (m : String) (q : ℚ), (fixQuantum s m q).1 ≠ 0) := by
  constructor
  · intro s m q h1 h2
    have hs2 : (hasInput s).2 = s := hasInput_true_eq h1
    simp only [fixQuantum, hs2]
    rw [if_pos ⟨h1, h2⟩]
  · intro s m q
    simp only [fixQuantum]
    by_cases hcond : (hasInput s).1 = true ∧
        m ∈ (hasInput s).2.moduleSelection.getD []
    · rw [if_pos hcond]
      by_cases hq : (timeLeft (hasInput s).2).1 /
          (((hasInput s).2.moduleSelection.getD []).length : ℚ) = 0
      · rw [if_pos hq]
        norm_num
      · rw [if_neg hq]
        exact hq
    · rw [if_neg hcond]
      by_cases hq : q = 0
      · rw [if_pos hq]
        norm_num
      · rw [if_neg hq]
        exact hq

/-- C7 witness: in a concrete interaction-mode state with selection
set("a"), target time 2 and timer 1, fix_quantum for module "a" returns
time_left()/1 = 1. -/
theorem claim7_witness :
    (fixQuantum ⟨some ["a"], 2, 1, 0, 0, 0, none, []⟩ "a" 5).1 = 1 := by
  have h := claim7_fix_quantum_amended.1 ⟨some ["a"], 2, 1, 0, 0, 0, none, []⟩
    "a" 5 rfl (by simp)
  rw [h]
  norm_num [timeLeft]

/- ---- C8 ---- -/

/- The starving_mods exit condition of _proc_interaction_opts. -/
def starvingFired (s : SState) (o : InterOpts) : Prop :=
  optListTruthy o.starvingMods = true ∧ sumSteps s (o.starvingMods.getD []) = 0

/- The max_time exit condition of _proc_interaction_opts. -/
def maxTimeFired (s : SState) (o : InterOpts) : Prop :=
  optRatTruthy o.maxTime = true ∧ s.wallClock - s.startInter ≥ o.maxTime.getD 0

/-- C8: in an end-of-run-list pass, the max_iter cycle counter is
incremented only when the pass is in interaction mode with options set
and neither the starving_mods nor the max_time exit condition fired; and
in interaction mode with max_iter set, once the counter has reached
max_iter the scheduler exits interaction mode: module_selection becomes
None and the counter is reset to 0. -/
theorem claim8_proc_interaction_opts :
    (∀ s : SState,
      (procInteractionOpts s).interCyclesCnt = s.interCyclesCnt + 1 →
      (hasInput s).1 = true ∧ ∃ o, s.interactionOpts = some o ∧
        ¬ starvingFired s o ∧ ¬ maxTimeFired s o) ∧
    (∀ (s : SState) (o : InterOpts) (k : Nat),
      (hasInput s).1 = true → s.interactionOpts = some o →
      o.maxIter = some k → k ≠ 0 → k ≤ s.interCyclesCnt →
      (procInteractionOpts s).moduleSelection = none ∧
      (procInteractionOpts s).interCyclesCnt = 0) := by
  constructor
  · intro s hcnt
    by_cases h1 : (hasInput s).1 = true
    · have hs2 : (hasInput s).2 = s := hasInput_true_eq h1
      simp only [procInteractionOpts, h1, hs2] at hcnt
      refine ⟨h1, ?_⟩
      match hopts : s.interactionOpts with
      | none =>
        simp only [hopts] at hcnt
        simp at hcnt
      | some o =>
        simp only [hopts] at hcnt
        refine ⟨o, rfl, ?_⟩
        by_cases hst : optListTruthy o.starvingMods = true ∧
            sumSteps s (o.starvingMods.getD []) = 0
        · rw [if_pos hst] at hcnt
          simp at hcnt
        · rw [if_neg hst] at hcnt
          by_cases hmt : optRatTruthy o.maxTime = true ∧
              s.wallClock - s.startInter ≥ o.maxTime.getD 0
          · rw [if_pos hmt] at hcnt
            simp at hcnt
          · exact ⟨hst, hmt⟩
    · have h1' : (hasInput s).1 = false := by
        cases h : (hasInput s).1
        · rfl
        · exact absurd h h1
      simp only [procInteractionOpts, h1', if_true] at hcnt
      rw [hasInput_cnt s] at hcnt
      omega
  · intro s o k h1 hopts hk hk0 hge
    have hs2 : (hasInput s).2 = s := hasInput_true_eq h1
    simp only [procInteractionOpts, h1, hs2, hopts]
    by_cases hst : optListTruthy o.starvingMods = true ∧
        sumSteps s (o.starvingMods.getD []) = 0
    · rw [if_pos hst]
      exact ⟨rfl, rfl⟩
    · rw [if_neg hst]
      by_cases hmt : optRatTruthy o.maxTime = true ∧
          s.wallClock - s.startInter ≥ o.maxTime.getD 0
      · rw [if_pos hmt]
        exact ⟨rfl, rfl⟩
      · rw [if_neg hmt]
        have htr : optNatTruthy o.maxIter = true := by
          simp [optNatTruthy, hk, hk0]
        rw [if_pos htr]
        have hge' : s.interCyclesCnt ≥ o.maxIter.getD 0 := by
          rw [hk]
          simpa using hge
        rw [if_pos hge']
        exact ⟨rfl, rfl⟩

/-- C8 witness: in a concrete interaction-mode pass with max_iter = 2 and
a cycle counter of 5, the scheduler exits interaction mode: the selection
becomes None and the counter is reset to 0. -/
theorem claim8_witness :
    (procInteractionOpts
      ⟨some ["a"], 2, 1, 10, 3, 5, some ⟨none, none, some 2⟩, []⟩).moduleSelection
        = none ∧
    (procInteractionOpts
      ⟨some ["a"], 2, 1, 10, 3, 5, some ⟨none, none, some 2⟩, []⟩).interCyclesCnt
        = 0 :=
  claim8_proc_interaction_opts.2
    ⟨some ["a"], 2, 1, 10, 3, 5, some ⟨none, none, some 2⟩, []⟩
    ⟨none, none, some 2⟩ 2 rfl rfl rfl (by decide) (by decide)

/- ---- C1 ---- -/

theorem inCount_ne_zero {m : ModuleV} (h : hasAnyInput m = true) :
    inCount m ≠ 0 := by
  simp only [hasAnyInput, List.any_eq_true] at h
  obtain ⟨x, hx, hsome⟩ := h
  match x, hsome with
  | some v, _ =>
    have hv : v ∈ boundSlots m := by
      simp only [boundSlots, List.mem_filterMap]
      exact ⟨some v, hx, rfl⟩
    have := List.length_pos.mpr (List.ne_nil_of_mem hv)
    simp only [inCount]
    omega

/-- C1 counterexample: a blocked non-input module with a single bound
input slot that still has buffered deltas while its producer is
Terminated.  The claim's zombie test counts every bound input whose
producer is Terminated or Invalid, so it requires is_ready to turn the
module into a Zombie and return false; the code counts a terminated
producer only when the slot is not ready, so it returns true and leaves
the state Blocked. -/
theorem claim1_counterexample :
    (⟨state_blocked, false, [some ⟨true, 0, 0, state_terminated⟩]⟩ :
      ModuleV).isInputFlag = false ∧
    specTermCount ⟨state_blocked, false, [some ⟨true, 0, 0, state_terminated⟩]⟩ =
      inCount ⟨state_blocked, false, [some ⟨true, 0, 0, state_terminated⟩]⟩ ∧
    inCount ⟨state_blocked, false, [some ⟨true, 0, 0, state_terminated⟩]⟩ ≠ 0 ∧
    isReady ⟨state_blocked, false, [some ⟨true, 0, 0, state_terminated⟩]⟩ ≠
      (false, ⟨state_zombie, false, [some ⟨true, 0, 0, state_terminated⟩]⟩) ∧
    (isReady ⟨state_blocked, false, [some ⟨true, 0, 0, state_terminated⟩]⟩).1 =
      true := by
  decide

/-- C1 (amended): the default is_ready: a Zombie transitions to
Terminated and returns false; Terminated or Invalid return false; with no
bound input slot it returns true; Ready returns true; when Blocked, if
the module is not an input module and every bound input slot is both not
ready and has a Terminated or Invalid producer (their number equalling
the positive number of bound inputs), it transitions to Zombie and
returns false, and otherwise it returns true iff at least one bound input
slot has buffered deltas or a producer whose last_update exceeds the
slot's last_update. -/
theorem claim1_is_ready_amended :
    ∀ m : ModuleV,
      (m.state = state_zombie →
        isReady m = (false, { m with state := state_terminated })) ∧
      (m.state = state_terminated ∨ m.state = state_invalid →
        isReady m = (false, m)) ∧
      (m.state ≠ state_zombie → m.state ≠ state_terminated →
        m.state ≠ state_invalid → hasAnyInput m = false →
        isReady m = (true, m)) ∧
      (m.state = state_ready → hasAnyInput m = true → isReady m = (true, m)) ∧
      (m.state = state_blocked → hasAnyInput m = true →
        ((m.isInputFlag = false → termCount m = inCount m →
            isReady m = (false, { m with state := state_zombie })) ∧
         (m.isInputFlag = true ∨ termCount m ≠ inCount m →
            isReady m = (decide (readyCount m ≠ 0), m)))) := by
  intro m
  refine ⟨?_, ?_, ?_, ?_, ?_⟩
  · intro h
    simp [isReady, h]
  · rintro (h | h) <;>
      simp [isReady, h, state_terminated, state_invalid, state_zombie]
  · intro h1 h2 h3 h4
    simp [isReady, h1, h2, h3, h4]
  · intro h hany
    simp [isReady, h, hany, state_ready, state_zombie, state_terminated,
      state_invalid]
  · intro h hany
    have hin := inCount_ne_zero hany
    constructor
    · intro hflag hterm
      simp [isReady, h, hany, hflag, hterm, hin, state_blocked, state_zombie,
        state_terminated, state_invalid, state_ready]
    · intro hcase
      rcases hcase with hflag | hterm
      · simp [isReady, h, hany, hflag, hin, state_blocked, state_zombie,
          state_terminated, state_invalid, state_ready]
      · simp [isReady, h, hany, hterm, hin, state_blocked, state_zombie,
          state_terminated, state_invalid, state_ready]

/-- C1 witness: a concrete Zombie module is turned into Terminated by
is_ready, which returns false. -/
theorem claim1_witness :
    isReady ⟨state_zombie, false, []⟩ = (false, ⟨state_terminated, false, []⟩) :=
  (claim1_is_ready_amended ⟨state_zombie, false, []⟩).1 rfl

/- ---- C4 ---- -/

/-- C4: code bug.  In the dataflow with modules "a" and "b" connected by
a.out → b.in, remove_module("a") reaches _remove_module_outputs, whose
filter `s.module != name` removes nothing from a's own fan-out list
[Slot("b","in")], so its `assert nslots != slots` fails: the removal
raises AssertionError instead of unwiring the connections referencing
"a", and b's input map still refers to "a". -/
theorem claim4_remove_module_assertion_fails :
    removeModule
      ⟨[("a", 0), ("b", 0)], ["a", "b"],
       [("a", []), ("b", [("in", ⟨"a", "out"⟩)])],
       [("a", [("out", [⟨"b", "in"⟩])]), ("b", [])]⟩ "a" =
      Except.error "assert nslots != slots" := by
  rfl

/- ---- C5 ---- -/

/-- C5: code bug.  First conjunct: on a fresh output name the forward
binding and the reverse fan-out edge are recorded as the claim states.
Second conjunct: when outputs["s"]["out"] already holds a fan-out entry
(s.out → c1.in), adding s.out → c2.in executes
`self._outputs[output_module.name].append(oslot)`, an append on the
outputs *dict*, which raises AttributeError instead of appending to the
fan-out list. -/
theorem claim5_add_connection_fanout :
    (addConnection
      ⟨[("s", 0), ("c1", 0)], ["s", "c1"],
       [("s", []), ("c1", [])],
       [("s", []), ("c1", [])]⟩ "s" "out" "c1" "in" =
      Except.ok
        ⟨[("s", 0), ("c1", 0)], ["s", "c1"],
         [("s", []), ("c1", [("in", ⟨"s", "out"⟩)])],
         [("s", [("out", [⟨"c1", "in"⟩])]), ("c1", [])]⟩) ∧
    (addConnection
      ⟨[("s", 0), ("c1", 0), ("c2", 0)], ["s", "c1", "c2"],
       [("s", []), ("c1", [("in", ⟨"s", "out"⟩)]), ("c2", [])],
       [("s", [("out", [⟨"c1", "in"⟩])]), ("c1", []), ("c2", [])]⟩
      "s" "out" "c2" "in" =
      Except.error "AttributeError: dict object has no attribute append") := by
  exact ⟨rfl, rfl⟩

/- ---- C6 ---- -/

/-- C6 counterexample: a two-module cycle a ↔ b through required inputs.
order_modules propagates the ValueError, and _update_modules leaves the
scheduler's run_list EMPTY (it was cleared before the ordering), rather
than keeping the previous run_list ["a", "b"] as the claim states: the
previous list is restored only when validation fails, not on a cycle. -/
theorem claim6_counterexample :
    orderModules [⟨"a", true, [("b", true)]⟩, ⟨"b", true, [("a", true)]⟩] =
      Except.error "ValueError: cycle" ∧
    (updateModules ["a", "b"]
      [⟨"a", true, [("b", true)]⟩, ⟨"b", true, [("a", true)]⟩] true).2 = [] ∧
    (([] : List String) ≠ ["a", "b"]) := by
  refine ⟨rfl, rfl, by decide⟩

/-- C6 (amended): order_modules topologically sorts the collected
dependencies; when the sort raises on a cycle it retries with only the
required inputs; the failure propagates exactly when the restricted map
is still cyclic; and in that case _update_modules propagates the error
with the run_list left empty (the previous run_list is restored only on
a validation failure, not on a persistent cycle). -/
theorem claim6_order_modules_amended :
    (∀ (mods : List DepMod) (r : List String),
      toposort (collectDependencies mods false) = Except.ok r →
      orderModules mods = Except.ok r) ∧
    (∀ (mods : List DepMod) (e : String),
      toposort (collectDependencies mods false) = Except.error e →
      orderModules mods = toposort (collectDependencies mods true)) ∧
    (∀ mods : List DepMod,
      (∃ e, orderModules mods = Except.error e) ↔
      ((∃ e, toposort (collectDependencies mods false) = Except.error e) ∧
       (∃ e2, toposort (collectDependencies mods true) = Except.error e2))) ∧
    (∀ (runList : List String) (mods : List DepMod) (v : Bool) (e : String),
      orderModules mods = Except.error e →
      updateModules runList mods v = (some e, [])) := by
  refine ⟨?_, ?_, ?_, ?_⟩
  · intro mods r h
    simp [orderModules, h]
  · intro mods e h
    simp [orderModules, h]
  · intro mods
    constructor
    · rintro ⟨e, he⟩
      match h1 : toposort (collectDependencies mods false) with
      | Except.ok r => simp [orderModules, h1] at he
      | Except.error e1 =>
        refine ⟨⟨e1, rfl⟩, ⟨e, ?_⟩⟩
        simpa [orderModules, h1] using he
    · rintro ⟨⟨e1, he1⟩, ⟨e2, he2⟩⟩
      exact ⟨e2, by simp [orderModules, he1, he2]⟩
  · intro runList mods v e h
    simp [updateModules, h]

/-- C6 witness: on the acyclic graph a → b the first topological sort
succeeds and order_modules adopts it. -/
theorem claim6_witness :
    orderModules [⟨"a", true, []⟩, ⟨"b", true, [("a", true)]⟩] =
      Except.ok ["a", "b"] :=
  claim6_order_modules_amended.1
    [⟨"a", true, []⟩, ⟨"b", true, [("a", true)]⟩] ["a", "b"] rfl

/- ---- C3 ---- -/

/-- C3 counterexample: a dependency map with a single module that is not
a visualization.  R[0] = set("0") contains no visualization, so 0 enters
reach_no_vis and is subtracted from its own entry: after the subtraction
the reachability map is not reflexive, 0 ∉ R[0]. -/
theorem claim3_counterexample :
    (0 : Fin 1) ∉ finalReach (fun _ _ => false) (fun _ => false) 0 := by
  decide

/-- C3 (amended): for every dependency map the reachability computed by
_compute_reachability is reflexive and transitively closed before the
subtraction of the no-visualization modules; after the subtraction it is
still transitively closed, and it contains u in R[u] exactly for the
modules u that were not subtracted. -/
theorem claim3_reachability_amended :
    ∀ (n : Nat) (deps : Fin n → Fin n → Bool) (vis : Fin n → Bool) (u v w : Fin n),
      (u ∈ reachSet deps u) ∧
      (v ∈ reachSet deps u → w ∈ reachSet deps v → w ∈ reachSet deps u) ∧
      (v ∈ finalReach deps vis u → w ∈ finalReach deps vis v →
        w ∈ finalReach deps vis u) ∧
      (u ∉ deadVis deps vis → u ∈ finalReach deps vis u) := by
  intro n deps vis u v w
  refine ⟨?_, ?_, ?_, ?_⟩
  · simp [reachSet, closeRel_refl]
  · intro h1 h2
    simp only [reachSet, Finset.mem_filter, Finset.mem_univ, true_and] at h1 h2 ⊢
    exact closeRel_trans deps h1 h2
  · intro h1 h2
    simp only [finalReach, Finset.mem_sdiff, reachSet, Finset.mem_filter,
      Finset.mem_univ, true_and] at h1 h2 ⊢
    exact ⟨closeRel_trans deps h1.1 h2.1, h2.2⟩
  · intro hu
    simp only [finalReach, Finset.mem_sdiff, reachSet, Finset.mem_filter,
      Finset.mem_univ, true_and]
    exact ⟨closeRel_refl deps u, hu⟩

/-- C3 witness: with a single visualization module, nothing is
subtracted and the final reachability map is reflexive at 0. -/
theorem claim3_witness :
    (0 : Fin 1) ∈ finalReach (fun _ _ => false) (fun _ => true) 0 :=
  (claim3_reachability_amended 1 (fun _ _ => false) (fun _ => true)
    0 0 0).2.2.2 (by decide)

end Progressivis
